import Mathlib

/-!
Shallow embedding of the django_multimedia repository's access-control,
project-lifecycle and association logic, with theorems settling the frozen
claims about it.

Sources embedded:
- src/accounts/models.py  : TeamMembership (role capabilities), Team.is_member
- src/projects/models.py  : Project.publish, Project.can_edit, Project.can_view
- src/projects/views.py   : project_publish, project_comment, project_like
- src/media/models.py     : ProjectMediaAssociation (unique (project, media))
- src/media/views.py      : add_media_to_project, remove_media_from_project
- src/accounts/views.py   : register, team_add_member

Database tables are embedded as Lean lists of rows; Django `.filter(...).first()`
becomes `List.find?`, `.exists()` becomes `List.any`, `.count()` becomes the
length of a filter, a unique-constraint violation on insert becomes an explicit
error result leaving the list unchanged, and a single-row `.delete()` becomes
`List.eraseP`. An HTTP actor is `Option UserId`: `none` is Django's
AnonymousUser (`is_authenticated = False`).
-/

namespace DjangoMultimedia

abbrev UserId := Nat
abbrev TeamId := Nat
abbrev ProjectId := Nat
abbrev MediaId := Nat

/-- `none` models Django's AnonymousUser (`user.is_authenticated` false). -/
abbrev Actor := Option UserId

/-- `TeamMembership.ROLE_CHOICES` in src/accounts/models.py. -/
inductive Role where
  | owner
  | editor
  | viewer
  | commenter
deriving DecidableEq, Repr

/-- A row of the `TeamMembership` table (src/accounts/models.py).
`unique_together = ('team', 'user')`. -/
structure TeamMembership where
  team : TeamId
  user : UserId
  role : Role
deriving DecidableEq, Repr

/-- `TeamMembership.can_edit`: `self.role in ['owner', 'editor']`. -/
def TeamMembership.can_edit (m : TeamMembership) : Bool :=
  m.role == Role.owner || m.role == Role.editor

/-- `TeamMembership.can_view`: `self.role in ['owner', 'editor', 'viewer', 'commenter']`. -/
def TeamMembership.can_view (m : TeamMembership) : Bool :=
  m.role == Role.owner || m.role == Role.editor || m.role == Role.viewer ||
    m.role == Role.commenter

/-- `TeamMembership.can_comment`: `self.role in ['owner', 'editor', 'commenter']`. -/
def TeamMembership.can_comment (m : TeamMembership) : Bool :=
  m.role == Role.owner || m.role == Role.editor || m.role == Role.commenter

/-- `Team.is_member`: `self.members.filter(pk=user.pk).exists()` — membership
through the `TeamMembership` table. -/
def is_member (ms : List TeamMembership) (t : TeamId) (u : UserId) : Bool :=
  ms.any fun m => m.team == t && m.user == u

/-- `self.team.members.through.objects.filter(user=user, team=self.team).first()`
in `Project.can_edit`. -/
def findMembership (ms : List TeamMembership) (t : TeamId) (u : UserId) :
    Option TeamMembership :=
  ms.find? fun m => m.user == u && m.team == t

/-- `Project.STATUS_CHOICES` in src/projects/models.py. -/
inductive Status where
  | draft
  | published
  | archived
deriving DecidableEq, Repr

/-- The fields of the `Project` model (src/projects/models.py) that the claims
touch. `like_count` is a Django `IntegerField`, hence `Int`; `published_at` is
a nullable timestamp, modelled as `Option Nat`. -/
structure Project where
  id : ProjectId
  creator : UserId
  team : Option TeamId
  status : Status
  is_public : Bool
  like_count : Int
  published_at : Option Nat
deriving DecidableEq, Repr

/-- `Project.publish` (src/projects/models.py lines 88-92):
sets `status = 'published'` and `published_at = timezone.now()`,
then saves. Note: the timestamp assignment is unconditional. -/
def Project.publish (p : Project) (now : Nat) : Project :=
  { p with status := Status.published, published_at := some now }

/-- `Project.can_edit` (src/projects/models.py lines 111-121). -/
def Project.can_edit (p : Project) (ms : List TeamMembership) (user : Actor) : Bool :=
  match user with
  | none => false
  | some u =>
    if p.creator == u then true
    else
      match p.team with
      | some t =>
        match findMembership ms t u with
        | some m => m.can_edit
        | none => false
      | none => false

/-- `Project.can_view` (src/projects/models.py lines 123-133). -/
def Project.can_view (p : Project) (ms : List TeamMembership) (user : Actor) : Bool :=
  if p.is_public then true
  else
    match user with
    | none => false
    | some u =>
      if p.creator == u then true
      else
        match p.team with
        | some t => is_member ms t u
        | none => false

/-- The `project_publish` view (src/projects/views.py lines 145-156):
guarded only by `can_edit`; on permission failure the project is left
untouched (the view just redirects with an error message). -/
def project_publish (p : Project) (ms : List TeamMembership) (user : Actor)
    (now : Nat) : Project :=
  if p.can_edit ms user then p.publish now else p

/-- A row of the `ProjectLike` table (src/projects/models.py);
`unique_together = ('project', 'user')`. -/
structure LikeRow where
  project : ProjectId
  user : UserId
deriving DecidableEq, Repr

/-- Number of `ProjectLike` rows for a (project, user) pair. -/
def countLikes (likes : List LikeRow) (pid : ProjectId) (u : UserId) : Nat :=
  (likes.filter fun l => l.project == pid && l.user == u).length

/-- The `project_like` view (src/projects/views.py lines 242-260), for an
authenticated user `u` (the view is `login_required`) on an existing project:
`project.likes.filter(user=request.user).first()`; if a row exists it is
deleted and `like_count = max(0, like_count - 1)`; otherwise a row is created
and `like_count += 1`. No access predicate is evaluated. -/
def project_like (p : Project) (likes : List LikeRow) (u : UserId) :
    Project × List LikeRow :=
  if likes.any (fun l => l.project == p.id && l.user == u) then
    ({ p with like_count := max 0 (p.like_count - 1) },
     likes.eraseP fun l => l.project == p.id && l.user == u)
  else
    ({ p with like_count := p.like_count + 1 }, ⟨p.id, u⟩ :: likes)

/-- A row of the `ProjectComment` table (src/projects/models.py). -/
structure Comment where
  project : ProjectId
  author : UserId
  content : String
deriving DecidableEq, Repr

/-- Python's `str.strip()` as `request.POST.get('content', '').strip()` uses
it: leading and trailing whitespace removed. -/
def pyStrip (s : String) : String :=
  String.mk
    (((s.data.dropWhile Char.isWhitespace).reverse.dropWhile
        Char.isWhitespace).reverse)

/-- The `project_comment` view (src/projects/views.py lines 216-239), for an
authenticated user `u` on an existing project: strips the content, rejects it
if empty, otherwise inserts a `ProjectComment` row. No access predicate is
evaluated. -/
def project_comment (p : Project) (u : UserId) (content : String)
    (comments : List Comment) : List Comment :=
  if pyStrip content == "" then comments
  else ⟨p.id, u, pyStrip content⟩ :: comments

/-- The fields of `MediaAsset` (src/media/models.py) used by the claims:
each asset is owned by exactly one user. -/
structure MediaAsset where
  id : MediaId
  owner : UserId
deriving DecidableEq, Repr

/-- A row of `ProjectMediaAssociation` (src/media/models.py lines 179-199):
`unique_together = ('project', 'media')`. `pk` is the Django primary key,
`order` a Django `IntegerField`. -/
structure Association where
  pk : Nat
  project : ProjectId
  media : MediaId
  order : Int
  is_cover : Bool
deriving DecidableEq, Repr

/-- `project.media_files.count()` — associations of one project. -/
def projectAssocCount (assocs : List Association) (pid : ProjectId) : Nat :=
  (assocs.filter fun a => a.project == pid).length

/-- Associations for one (project, media) pair. -/
def pairAssocCount (assocs : List Association) (pid : ProjectId) (mid : MediaId) : Nat :=
  (assocs.filter fun a => a.project == pid && a.media == mid).length

inductive AddMediaResult where
  | noPermission
  | mediaNotFound
  | constraintError
  | added
deriving DecidableEq, Repr

/-- The POST branch of the `add_media_to_project` view (src/media/views.py
lines 173-213), for an authenticated user `u`: guarded by `can_edit`; the
media asset is looked up with `MediaAsset.objects.get(id=media_id,
owner=request.user)`; `next_order = project.media_files.count()`; the insert
violates the (project, media) unique constraint when the pair already exists,
the exception is caught and the table is unchanged. `newPk` is the primary key
the database would assign to the fresh row. -/
def add_media_to_project (p : Project) (ms : List TeamMembership) (u : UserId)
    (mediaAssets : List MediaAsset) (assocs : List Association)
    (media_id : MediaId) (is_cover : Bool) (newPk : Nat) :
    List Association × AddMediaResult :=
  if p.can_edit ms (some u) then
    match mediaAssets.find? (fun m => m.id == media_id && m.owner == u) with
    | none => (assocs, AddMediaResult.mediaNotFound)
    | some _ =>
      if assocs.any (fun a => a.project == p.id && a.media == media_id) then
        (assocs, AddMediaResult.constraintError)
      else
        (assocs ++ [⟨newPk, p.id, media_id, (projectAssocCount assocs p.id : Int), is_cover⟩],
         AddMediaResult.added)
  else (assocs, AddMediaResult.noPermission)

/-- The `remove_media_from_project` view (src/media/views.py lines 216-228),
for an authenticated user `u`: the association is fetched by primary key; if
the actor may edit its project, `association.delete()` removes that single
row and nothing else. `projects` resolves `association.project`. -/
def remove_media_from_project (projects : List Project) (ms : List TeamMembership)
    (assocs : List Association) (u : UserId) (pk : Nat) : List Association :=
  match assocs.find? (fun a => a.pk == pk) with
  | none => assocs
  | some a =>
    match projects.find? (fun p => p.id == a.project) with
    | none => assocs
    | some p =>
      if p.can_edit ms (some u) then assocs.eraseP (fun b => b.pk == pk)
      else assocs

/-- The fields of Django's `User` that `register` touches. -/
structure UserRow where
  id : UserId
  username : String
  email : String
deriving DecidableEq, Repr

/-- A row of the `UserProfile` table (src/accounts/models.py): a one-to-one
extension of `User`; only the `user` foreign key matters to the claims. -/
structure UserProfile where
  user : UserId
deriving DecidableEq, Repr

/-- The identity and profile tables together. -/
structure RegState where
  users : List UserRow
  profiles : List UserProfile
deriving DecidableEq, Repr

/-- Modelled from the spec: the repository's signal handler that creates the
`UserProfile` is not under src/ (src/accounts/views.py line 55 only notes
"UserProfile is created automatically by signal"). Per the spec, "Profile is
created implicitly alongside User creation": creating a user inside the
registration transaction also inserts the matching profile row, in the same
atomic step. `newId` is the primary key the database assigns to the new user. -/
def create_user_with_profile (s : RegState) (newId : UserId)
    (username email : String) : RegState :=
  { users := ⟨newId, username, email⟩ :: s.users,
    profiles := ⟨newId⟩ :: s.profiles }

inductive RegResult where
  | missingFields
  | passwordMismatch
  | usernameTaken
  | emailTaken
  | success
deriving DecidableEq, Repr

/-- The POST branch of the `register` view (src/accounts/views.py lines 15-63)
for an unauthenticated visitor: field presence and password-confirmation
checks, username and email uniqueness checks, then `transaction.atomic()`
around user creation (with the profile created alongside it by the signal).
A missing POST field reads as the empty string. -/
def register (s : RegState) (newId : UserId)
    (username email password password_confirm : String) : RegState × RegResult :=
  if username == "" || email == "" || password == "" || password_confirm == "" then
    (s, RegResult.missingFields)
  else if password != password_confirm then (s, RegResult.passwordMismatch)
  else if s.users.any (fun u => u.username == username) then
    (s, RegResult.usernameTaken)
  else if s.users.any (fun u => u.email == email) then (s, RegResult.emailTaken)
  else (create_user_with_profile s newId username email, RegResult.success)

/-- The fields of `Team` (src/accounts/models.py) used by the claims. -/
structure Team where
  id : TeamId
  owner : UserId
deriving DecidableEq, Repr

inductive AddMemberResult where
  | notOwner
  | userNotFound
  | alreadyMember
  | added
deriving DecidableEq, Repr

/-- The POST branch of the `team_add_member` view (src/accounts/views.py
lines 232-263) for an authenticated `requester`: rejected unless
`team.owner == request.user` (strict identity, not role-based); the target
user is resolved by username; `team.is_member(user)` rejects duplicates
before any insert. -/
def team_add_member (team : Team) (ms : List TeamMembership) (requester : UserId)
    (users : List UserRow) (username : String) (role : Role) :
    List TeamMembership × AddMemberResult :=
  if team.owner != requester then (ms, AddMemberResult.notOwner)
  else
    match users.find? (fun u => u.username == username) with
    | none => (ms, AddMemberResult.userNotFound)
    | some u =>
      if is_member ms team.id u.id then (ms, AddMemberResult.alreadyMember)
      else (⟨team.id, u.id, role⟩ :: ms, AddMemberResult.added)

/-!
## Theorems settling the claims
-/

/-- C1 counterexample: a project whose `published_at` is already `some 100`
and whose creator (who can edit) publishes it at time 200 ends with
`published_at = some 200`: the claim that publishing leaves an already-set
`published_at` unchanged is false — `Project.publish` stamps unconditionally. -/
theorem C1_counterexample :
    (Project.mk 0 1 none Status.published false 0 (some 100)).can_edit [] (some 1) = true ∧
    (Project.mk 0 1 none Status.published false 0 (some 100)).published_at = some 100 ∧
    (project_publish (Project.mk 0 1 none Status.published false 0 (some 100))
      [] (some 1) 200).published_at = some 200 ∧
    (some 200 : Option Nat) ≠ some 100 := by
  decide

/-- C1 (amended): for every project and every actor allowed by `can_edit`,
the publish operation sets `status` to `published` and sets `published_at`
to the current time unconditionally, overwriting any previously set value. -/
theorem C1_publish_sets_status_and_timestamp
    (p : Project) (ms : List TeamMembership) (u : Actor) (now : Nat)
    (h : p.can_edit ms u = true) :
    (project_publish p ms u now).status = Status.published ∧
    (project_publish p ms u now).published_at = some now := by
  simp [project_publish, h, Project.publish]

/-- Witness for C1's amended theorem at a concrete project and actor. -/
theorem C1_publish_witness :
    (project_publish (Project.mk 0 1 none Status.draft false 0 none)
      [] (some 1) 42).status = Status.published ∧
    (project_publish (Project.mk 0 1 none Status.draft false 0 none)
      [] (some 1) 42).published_at = some 42 :=
  C1_publish_sets_status_and_timestamp
    (Project.mk 0 1 none Status.draft false 0 none) [] (some 1) 42 (by decide)

/-- C2: `can_view` case analysis as the claim states it: public projects are
viewable by anyone; the creator can always view; a private project is not
viewable by an authenticated non-creator who is not a member of its team (or
when it has no team); a private project's team member can view it; an
unauthenticated actor can view exactly the public projects. -/
theorem C2_can_view_characterization
    (p : Project) (ms : List TeamMembership) (uid : UserId) :
    (p.is_public = true → ∀ a : Actor, p.can_view ms a = true) ∧
    (p.can_view ms (some p.creator) = true) ∧
    (p.is_public = false → uid ≠ p.creator →
      (∀ t, p.team = some t → is_member ms t uid = false) →
      p.can_view ms (some uid) = false) ∧
    (∀ t, p.team = some t → is_member ms t uid = true →
      p.can_view ms (some uid) = true) ∧
    (p.can_view ms none = p.is_public) := by
  unfold Project.can_view
  refine ⟨fun hpub a => by simp [hpub], ?_, ?_, ?_, ?_⟩
  · by_cases hpub : p.is_public <;> simp [hpub]
  · intro hpub hne hmem
    have hcr : (p.creator == uid) = false := by
      simp [beq_eq_false_iff_ne]
      exact fun h => hne h.symm
    cases hteam : p.team with
    | none => simp [hpub, hcr, hteam]
    | some t => simp [hpub, hcr, hteam, hmem t hteam]
  · intro t hteam hmem
    by_cases hpub : p.is_public
    · simp [hpub]
    · by_cases hcr : p.creator == uid <;> simp [hpub, hcr, hteam, hmem]
  · by_cases hpub : p.is_public <;> simp [hpub]

/-- Witness for C2 at a concrete private team project: the creator and a team
member can view it, an unrelated authenticated user and the anonymous actor
cannot. -/
theorem C2_can_view_witness :
    (Project.mk 0 1 (some 4) Status.draft false 0 none).can_view
      [TeamMembership.mk 4 2 Role.viewer] (some 3) = false ∧
    (Project.mk 0 1 (some 4) Status.draft false 0 none).can_view
      [TeamMembership.mk 4 2 Role.viewer] (some 1) = true ∧
    (Project.mk 0 1 (some 4) Status.draft false 0 none).can_view
      [TeamMembership.mk 4 2 Role.viewer] (some 2) = true ∧
    (Project.mk 0 1 (some 4) Status.draft false 0 none).can_view
      [TeamMembership.mk 4 2 Role.viewer] none = false := by
  have h3 := C2_can_view_characterization
    (Project.mk 0 1 (some 4) Status.draft false 0 none)
    [TeamMembership.mk 4 2 Role.viewer] 3
  have h2 := C2_can_view_characterization
    (Project.mk 0 1 (some 4) Status.draft false 0 none)
    [TeamMembership.mk 4 2 Role.viewer] 2
  refine ⟨?_, h3.2.1, ?_, ?_⟩
  · exact h3.2.2.1 rfl (by decide) (fun t ht => by cases ht; decide)
  · exact h2.2.2.2.1 4 rfl (by decide)
  · exact (h3.2.2.2.2).trans rfl

/-- C3: `can_edit` case analysis as the claim states it: an unauthenticated
actor can never edit; the creator can always edit; for an authenticated
non-creator, edit permission on a team project equals the membership's
role being owner or editor (so viewer and commenter members cannot edit),
is false without a membership, and is false when the project has no team. -/
theorem C3_can_edit_characterization
    (p : Project) (ms : List TeamMembership) (uid : UserId) :
    (p.can_edit ms none = false) ∧
    (p.can_edit ms (some p.creator) = true) ∧
    (uid ≠ p.creator →
      (∀ t m, p.team = some t → findMembership ms t uid = some m →
        p.can_edit ms (some uid) = (m.role == Role.owner || m.role == Role.editor)) ∧
      (∀ t, p.team = some t → findMembership ms t uid = none →
        p.can_edit ms (some uid) = false) ∧
      (p.team = none → p.can_edit ms (some uid) = false)) := by
  unfold Project.can_edit
  refine ⟨rfl, by simp, fun hne => ?_⟩
  have hcr : (p.creator == uid) = false := by
    simp [beq_eq_false_iff_ne]
    exact fun h => hne h.symm
  refine ⟨fun t m hteam hfind => ?_, fun t hteam hfind => ?_, fun hteam => ?_⟩
  · simp [hcr, hteam, hfind, TeamMembership.can_edit]
  · simp [hcr, hteam, hfind]
  · simp [hcr, hteam]

/-- Witness for C3 at a concrete team project: an editor member can edit, a
viewer member cannot, a non-member cannot, the creator can, and the anonymous
actor cannot. -/
theorem C3_can_edit_witness :
    (Project.mk 0 1 (some 4) Status.draft false 0 none).can_edit
      [TeamMembership.mk 4 2 Role.viewer, TeamMembership.mk 4 3 Role.editor]
      (some 3) = true ∧
    (Project.mk 0 1 (some 4) Status.draft false 0 none).can_edit
      [TeamMembership.mk 4 2 Role.viewer, TeamMembership.mk 4 3 Role.editor]
      (some 2) = false ∧
    (Project.mk 0 1 (some 4) Status.draft false 0 none).can_edit
      [TeamMembership.mk 4 2 Role.viewer, TeamMembership.mk 4 3 Role.editor]
      (some 5) = false ∧
    (Project.mk 0 1 (some 4) Status.draft false 0 none).can_edit
      [TeamMembership.mk 4 2 Role.viewer, TeamMembership.mk 4 3 Role.editor]
      (some 1) = true ∧
    (Project.mk 0 1 (some 4) Status.draft false 0 none).can_edit
      [TeamMembership.mk 4 2 Role.viewer, TeamMembership.mk 4 3 Role.editor]
      none = false := by
  have h3 := C3_can_edit_characterization
    (Project.mk 0 1 (some 4) Status.draft false 0 none)
    [TeamMembership.mk 4 2 Role.viewer, TeamMembership.mk 4 3 Role.editor] 3
  have h2 := C3_can_edit_characterization
    (Project.mk 0 1 (some 4) Status.draft false 0 none)
    [TeamMembership.mk 4 2 Role.viewer, TeamMembership.mk 4 3 Role.editor] 2
  have h5 := C3_can_edit_characterization
    (Project.mk 0 1 (some 4) Status.draft false 0 none)
    [TeamMembership.mk 4 2 Role.viewer, TeamMembership.mk 4 3 Role.editor] 5
  refine ⟨?_, ?_, ?_, h3.2.1, h3.1⟩
  · exact ((h3.2.2 (by decide)).1 4 (TeamMembership.mk 4 3 Role.editor) rfl
      (by decide)).trans (by decide)
  · exact ((h2.2.2 (by decide)).1 4 (TeamMembership.mk 4 2 Role.viewer) rfl
      (by decide)).trans (by decide)
  · exact (h5.2.2 (by decide)).2.1 4 rfl (by decide)

/-- C4 counterexample: an archived project whose creator invokes the
documented publish transition leaves the archived state and becomes
published — contradicting the claim that no documented transition moves a
project out of `archived`. -/
theorem C4_counterexample :
    (Project.mk 0 1 none Status.archived false 0 none).status = Status.archived ∧
    (Project.mk 0 1 none Status.archived false 0 none).can_edit [] (some 1) = true ∧
    (project_publish (Project.mk 0 1 none Status.archived false 0 none)
      [] (some 1) 5).status = Status.published := by
  decide

/-- C4 (amended): the publish transition checks only `can_edit`, never the
current status: an archived project on which an edit-capable actor invokes
publish transitions to `published` (archived is not an absorbing state),
while an actor without edit permission leaves the archived status unchanged. -/
theorem C4_archived_not_absorbing
    (p : Project) (ms : List TeamMembership) (u : Actor) (now : Nat)
    (harch : p.status = Status.archived) :
    (p.can_edit ms u = true →
      (project_publish p ms u now).status = Status.published) ∧
    (p.can_edit ms u = false →
      (project_publish p ms u now).status = Status.archived) := by
  constructor <;> intro h <;> simp [project_publish, h, Project.publish, harch]

/-- Witness for C4's amended theorem at a concrete archived project. -/
theorem C4_archived_witness :
    ((project_publish (Project.mk 0 1 none Status.archived false 0 none)
      [] (some 1) 5).status = Status.published) ∧
    ((project_publish (Project.mk 0 1 none Status.archived false 0 none)
      [] (some 2) 5).status = Status.archived) :=
  ⟨(C4_archived_not_absorbing (Project.mk 0 1 none Status.archived false 0 none)
      [] (some 1) 5 rfl).1 (by decide),
   (C4_archived_not_absorbing (Project.mk 0 1 none Status.archived false 0 none)
      [] (some 2) 5 rfl).2 (by decide)⟩

/-- Absence of a (project, user) Like row, as the view's `.filter(...).first()`
existence test sees it, stated through the row count. -/
lemma countLikes_eq_zero_iff (likes : List LikeRow) (pid : ProjectId) (u : UserId) :
    countLikes likes pid u = 0 ↔
      likes.any (fun l => l.project == pid && l.user == u) = false := by
  simp [countLikes, List.length_eq_zero, List.filter_eq_nil_iff, List.any_eq_false]

/-- Deleting the first matching Like row drops the (project, user) row count
by one. -/
lemma countLikes_eraseP (likes : List LikeRow) (pid : ProjectId) (u : UserId) :
    countLikes (likes.eraseP fun l => l.project == pid && l.user == u) pid u
      = countLikes likes pid u - 1 := by
  induction likes with
  | nil => rfl
  | cons a l ih =>
    simp only [List.eraseP_cons, countLikes, List.filter_cons]
    cases h : (a.project == pid && a.user == u) with
    | true => simp [h, countLikes]
    | false =>
      simp only [h, cond_false, List.filter_cons, List.length_cons]
      simpa [countLikes, h] using ih

/-- C5 counterexample: starting from a state that already holds the Like row
(0, 7) and `like_count = 5` (non-negative), toggling twice by user 7 leaves
one Like row for the pair, not zero: the double-toggle part of the claim is
false when the starting state already contains the row. -/
theorem C5_counterexample :
    (0 : Int) ≤ (Project.mk 0 1 none Status.draft false 5 none).like_count ∧
    countLikes [LikeRow.mk 0 7] 0 7 = 1 ∧
    countLikes
      (project_like
        (project_like (Project.mk 0 1 none Status.draft false 5 none)
          [LikeRow.mk 0 7] 7).1
        (project_like (Project.mk 0 1 none Status.draft false 5 none)
          [LikeRow.mk 0 7] 7).2 7).2 0 7 = 1 := by
  decide

/-- C5 (amended): a single toggle deletes the first (and, under the unique
constraint, only) Like row and floors the decrement at zero when the row
exists, else inserts the row and increments; and — restricted to a starting
state holding no Like row for the pair — toggling twice returns `like_count`
to its original (non-negative) value and leaves zero Like rows. -/
theorem C5_like_toggle
    (p : Project) (likes : List LikeRow) (u : UserId)
    (hnn : 0 ≤ p.like_count) :
    (countLikes likes p.id u ≠ 0 →
      (project_like p likes u).1.like_count = max 0 (p.like_count - 1) ∧
      countLikes (project_like p likes u).2 p.id u = countLikes likes p.id u - 1) ∧
    (countLikes likes p.id u = 0 →
      (project_like p likes u).1.like_count = p.like_count + 1 ∧
      countLikes (project_like p likes u).2 p.id u = 1) ∧
    (countLikes likes p.id u = 0 →
      (project_like (project_like p likes u).1 (project_like p likes u).2 u).1.like_count
        = p.like_count ∧
      countLikes
        (project_like (project_like p likes u).1 (project_like p likes u).2 u).2
        p.id u = 0) := by
  refine ⟨fun hne => ?_, fun hz => ?_, fun hz => ?_⟩
  · have hany : likes.any (fun l => l.project == p.id && l.user == u) = true := by
      by_contra hfalse
      have hf : likes.any (fun l => l.project == p.id && l.user == u) = false := by
        revert hfalse
        cases likes.any (fun l => l.project == p.id && l.user == u) <;> simp
      exact hne ((countLikes_eq_zero_iff likes p.id u).mpr hf)
    simp [project_like, hany, countLikes_eraseP]
  · have hany := (countLikes_eq_zero_iff likes p.id u).mp hz
    have hz' : (likes.filter fun l => l.project == p.id && l.user == u).length = 0 := hz
    constructor
    · simp [project_like, hany]
    · simp [project_like, hany, countLikes, List.filter_cons, hz']
  · have hany := (countLikes_eq_zero_iff likes p.id u).mp hz
    have hz' : (likes.filter fun l => l.project == p.id && l.user == u).length = 0 := hz
    constructor
    · simp [project_like, hany, List.any_cons]
      omega
    · simp [project_like, hany, List.any_cons, List.eraseP_cons, countLikes, hz']

/-- Witness for C5's amended theorem: user 7 double-toggles a project with
`like_count = 3` and no prior Like row; the count returns to 3 and no row
remains. -/
theorem C5_like_toggle_witness :
    (project_like
      (project_like (Project.mk 0 1 none Status.draft false 3 none) [] 7).1
      (project_like (Project.mk 0 1 none Status.draft false 3 none) [] 7).2
      7).1.like_count = 3 ∧
    countLikes
      (project_like
        (project_like (Project.mk 0 1 none Status.draft false 3 none) [] 7).1
        (project_like (Project.mk 0 1 none Status.draft false 3 none) [] 7).2
        7).2 0 7 = 0 :=
  (C5_like_toggle (Project.mk 0 1 none Status.draft false 3 none) [] 7
    (by decide)).2.2 (by decide)

/-- A non-empty filtered row count means the duplicate-detection scan of the
table finds a matching row. -/
lemma any_of_filter_length_ne_zero {α : Type} (l : List α) (q : α → Bool)
    (h : (l.filter q).length ≠ 0) : l.any q = true := by
  have hne : l.filter q ≠ [] := fun he => h (by simp [he])
  obtain ⟨x, hx⟩ := List.exists_mem_of_ne_nil _ hne
  exact List.any_eq_true.mpr
    ⟨x, List.mem_of_mem_filter hx, List.of_mem_filter hx⟩

/-- C6: when a (project, media) association already exists (one row, as the
unique constraint guarantees), a second add attempt by an edit-capable owner
of the media fails with a constraint error, the association table is
unchanged, and the row count for the pair stays 1. -/
theorem C6_duplicate_association_rejected
    (p : Project) (ms : List TeamMembership) (u : UserId)
    (mediaAssets : List MediaAsset) (assocs : List Association)
    (mid : MediaId) (cov : Bool) (newPk : Nat) (ma : MediaAsset)
    (hperm : p.can_edit ms (some u) = true)
    (hmedia : mediaAssets.find? (fun m => m.id == mid && m.owner == u) = some ma)
    (hdup : pairAssocCount assocs p.id mid = 1) :
    add_media_to_project p ms u mediaAssets assocs mid cov newPk
      = (assocs, AddMediaResult.constraintError) ∧
    pairAssocCount
      (add_media_to_project p ms u mediaAssets assocs mid cov newPk).1
      p.id mid = 1 := by
  have hlen : (assocs.filter fun a => a.project == p.id && a.media == mid).length ≠ 0 := by
    have hd : pairAssocCount assocs p.id mid = 1 := hdup
    unfold pairAssocCount at hd
    omega
  have hany : assocs.any (fun a => a.project == p.id && a.media == mid) = true :=
    any_of_filter_length_ne_zero _ _ hlen
  have heq : add_media_to_project p ms u mediaAssets assocs mid cov newPk
      = (assocs, AddMediaResult.constraintError) := by
    simp [add_media_to_project, hperm, hmedia, hany]
  exact ⟨heq, by rw [heq]; exact hdup⟩

/-- Witness for C6: media 5 is already attached to project 0; the creator's
second attempt fails with a constraint error and leaves the single row. -/
theorem C6_duplicate_witness :
    add_media_to_project (Project.mk 0 1 none Status.draft false 0 none) [] 1
      [MediaAsset.mk 5 1] [Association.mk 10 0 5 0 false] 5 false 11
      = ([Association.mk 10 0 5 0 false], AddMediaResult.constraintError) ∧
    pairAssocCount
      (add_media_to_project (Project.mk 0 1 none Status.draft false 0 none) [] 1
        [MediaAsset.mk 5 1] [Association.mk 10 0 5 0 false] 5 false 11).1
      0 5 = 1 :=
  C6_duplicate_association_rejected
    (Project.mk 0 1 none Status.draft false 0 none) [] 1
    [MediaAsset.mk 5 1] [Association.mk 10 0 5 0 false] 5 false 11
    (MediaAsset.mk 5 1) (by decide) (by decide) (by decide)

/-- C7: a successful add appends one association whose `order` equals the
current count of the project's associations; and removing an association by
primary key deletes exactly one row while every other row survives verbatim —
in particular no remaining `order` value is renumbered. -/
theorem C7_append_order_and_remove_no_renumber
    (p : Project) (ms : List TeamMembership) (u : UserId)
    (mediaAssets : List MediaAsset) (assocs : List Association)
    (mid : MediaId) (cov : Bool) (newPk : Nat)
    (projects : List Project) (pk : Nat) :
    (p.can_edit ms (some u) = true →
      ∀ ma, mediaAssets.find? (fun m => m.id == mid && m.owner == u) = some ma →
      pairAssocCount assocs p.id mid = 0 →
      add_media_to_project p ms u mediaAssets assocs mid cov newPk
        = (assocs ++
            [Association.mk newPk p.id mid (projectAssocCount assocs p.id : Int) cov],
           AddMediaResult.added)) ∧
    (∀ a q, assocs.find? (fun b => b.pk == pk) = some a →
      projects.find? (fun r => r.id == a.project) = some q →
      q.can_edit ms (some u) = true →
      (remove_media_from_project projects ms assocs u pk).length
          = assocs.length - 1 ∧
      (∀ b ∈ remove_media_from_project projects ms assocs u pk, b ∈ assocs) ∧
      (∀ b ∈ assocs, (b.pk == pk) = false →
        b ∈ remove_media_from_project projects ms assocs u pk)) := by
  constructor
  · intro hperm ma hmedia hnew
    have hany : assocs.any (fun a => a.project == p.id && a.media == mid) = false := by
      have hnil : assocs.filter (fun a => a.project == p.id && a.media == mid) = [] := by
        simpa [pairAssocCount, List.length_eq_zero] using hnew
      rw [List.filter_eq_nil_iff] at hnil
      cases hres : assocs.any (fun a => a.project == p.id && a.media == mid) with
      | false => rfl
      | true =>
        obtain ⟨x, hxl, hxq⟩ := List.any_eq_true.mp hres
        exact absurd hxq (by simpa using hnil x hxl)
    simp [add_media_to_project, hperm, hmedia, hany]
  · intro a q hfind hproj hperm
    have hres : remove_media_from_project projects ms assocs u pk
        = assocs.eraseP (fun b => b.pk == pk) := by
      simp [remove_media_from_project, hfind, hproj, hperm]
    have hmem : a ∈ assocs := List.mem_of_find?_eq_some hfind
    have hpa : ((fun b : Association => b.pk == pk) a) = true :=
      List.find?_some (p := fun b : Association => b.pk == pk) hfind
    refine ⟨?_, ?_, ?_⟩
    · rw [hres]
      exact List.length_eraseP_of_mem hmem hpa
    · intro b hb
      rw [hres] at hb
      exact List.mem_of_mem_eraseP hb
    · intro b hb hbpk
      rw [hres]
      exact (List.mem_eraseP_of_neg (by simp [hbpk])).mpr hb

/-- Witness for C7: the second association of project 0 gets `order = 1`, and
removing the first association (pk 10) keeps the second (pk 11, order 1)
verbatim. -/
theorem C7_witness :
    add_media_to_project (Project.mk 0 1 none Status.draft false 0 none) [] 1
      [MediaAsset.mk 6 1] [Association.mk 10 0 5 0 false] 6 false 11
      = ([Association.mk 10 0 5 0 false, Association.mk 11 0 6 1 false],
         AddMediaResult.added) ∧
    Association.mk 11 0 6 1 false ∈
      remove_media_from_project [Project.mk 0 1 none Status.draft false 0 none] []
        [Association.mk 10 0 5 0 false, Association.mk 11 0 6 1 false] 1 10 := by
  have h := C7_append_order_and_remove_no_renumber
    (Project.mk 0 1 none Status.draft false 0 none) [] 1
    [MediaAsset.mk 6 1] [Association.mk 10 0 5 0 false] 6 false 11
    [Project.mk 0 1 none Status.draft false 0 none] 10
  have h2 := C7_append_order_and_remove_no_renumber
    (Project.mk 0 1 none Status.draft false 0 none) [] 1
    [MediaAsset.mk 6 1]
    [Association.mk 10 0 5 0 false, Association.mk 11 0 6 1 false] 6 false 12
    [Project.mk 0 1 none Status.draft false 0 none] 10
  refine ⟨h.1 (by decide) (MediaAsset.mk 6 1) (by decide) (by decide), ?_⟩
  exact (h2.2 (Association.mk 10 0 5 0 false)
      (Project.mk 0 1 none Status.draft false 0 none)
      (by decide) (by decide) (by decide)).2.2
    (Association.mk 11 0 6 1 false) (by decide) (by decide)

/-- C8: for every valid registration input (signalled by a `success` result),
`register` creates the `User` row and, in the same atomic step, exactly one
`UserProfile` row pointing at it (given a fresh primary key); and on every
failed validation the state is wholly unchanged — the profile is never
created detached from the user. -/
theorem C8_register_creates_profile_atomically
    (s : RegState) (newId : UserId) (un em pw pc : String)
    (hfresh : (s.profiles.filter fun pr => pr.user == newId).length = 0) :
    ((register s newId un em pw pc).2 = RegResult.success →
      ((register s newId un em pw pc).1.profiles.filter
          fun pr => pr.user == newId).length = 1 ∧
      UserRow.mk newId un em ∈ (register s newId un em pw pc).1.users) ∧
    ((register s newId un em pw pc).2 ≠ RegResult.success →
      (register s newId un em pw pc).1 = s) := by
  by_cases h1 : (un == "" || em == "" || pw == "" || pc == "") = true
  · have hr : register s newId un em pw pc = (s, RegResult.missingFields) := by
      simp [register, h1]
    rw [hr]
    exact ⟨fun h => absurd h (by simp), fun _ => rfl⟩
  · by_cases h2 : (pw != pc) = true
    · have hr : register s newId un em pw pc = (s, RegResult.passwordMismatch) := by
        simp only [register, h1, Bool.false_eq_true, if_false, h2, if_true]
      rw [hr]
      exact ⟨fun h => absurd h (by simp), fun _ => rfl⟩
    · by_cases h3 : (s.users.any fun u => u.username == un) = true
      · have hr : register s newId un em pw pc = (s, RegResult.usernameTaken) := by
          simp only [register, h1, h2, Bool.false_eq_true, if_false, h3, if_true]
        rw [hr]
        exact ⟨fun h => absurd h (by simp), fun _ => rfl⟩
      · by_cases h4 : (s.users.any fun u => u.email == em) = true
        · have hr : register s newId un em pw pc = (s, RegResult.emailTaken) := by
            simp only [register, h1, h2, h3, Bool.false_eq_true, if_false, h4, if_true]
          rw [hr]
          exact ⟨fun h => absurd h (by simp), fun _ => rfl⟩
        · have hr : register s newId un em pw pc
              = (create_user_with_profile s newId un em, RegResult.success) := by
            simp only [register, h1, h2, h3, h4, Bool.false_eq_true, if_false]
          rw [hr]
          refine ⟨fun _ => ⟨?_, ?_⟩, fun hne => absurd rfl hne⟩
          · simp [create_user_with_profile, List.filter_cons, hfresh]
          · exact List.mem_cons_self _ _

/-- Witness for C8 at a concrete valid registration into an empty database. -/
theorem C8_register_witness :
    ((register (RegState.mk [] []) 1 "alice" "a@x" "pw" "pw").1.profiles.filter
        fun pr => pr.user == 1).length = 1 ∧
    UserRow.mk 1 "alice" "a@x"
      ∈ (register (RegState.mk [] []) 1 "alice" "a@x" "pw" "pw").1.users :=
  (C8_register_creates_profile_atomically (RegState.mk [] []) 1
    "alice" "a@x" "pw" "pw" (by decide)).1 (by decide)

/-- C9: only the team owner (by strict identity) may add members — any other
requester leaves the roster unchanged; and when the target user is already a
member, the owner's request is rejected without inserting a row: the
membership table and its size are unchanged, so the (team, user) pair stays
unique. -/
theorem C9_add_member_owner_only_no_duplicate
    (team : Team) (ms : List TeamMembership) (requester : UserId)
    (users : List UserRow) (username : String) (role : Role) :
    (requester ≠ team.owner →
      team_add_member team ms requester users username role
        = (ms, AddMemberResult.notOwner)) ∧
    (∀ u, users.find? (fun x => x.username == username) = some u →
      is_member ms team.id u.id = true →
      team_add_member team ms team.owner users username role
        = (ms, AddMemberResult.alreadyMember) ∧
      (team_add_member team ms team.owner users username role).1.length
        = ms.length) := by
  constructor
  · intro hne
    have hb : (team.owner != requester) = true := by
      simp [bne_iff_ne]
      exact fun h => hne h.symm
    simp [team_add_member, hb]
  · intro u hfind hmem
    have heq : team_add_member team ms team.owner users username role
        = (ms, AddMemberResult.alreadyMember) := by
      simp [team_add_member, hfind, hmem]
    exact ⟨heq, by rw [heq]⟩

/-- Witness for C9: a non-owner is rejected, and the owner re-adding the
existing member 2 leaves the single-row roster unchanged. -/
theorem C9_add_member_witness :
    team_add_member (Team.mk 0 1) [TeamMembership.mk 0 2 Role.viewer] 3
      [UserRow.mk 2 "bob" "b@x"] "bob" Role.viewer
      = ([TeamMembership.mk 0 2 Role.viewer], AddMemberResult.notOwner) ∧
    team_add_member (Team.mk 0 1) [TeamMembership.mk 0 2 Role.viewer] 1
      [UserRow.mk 2 "bob" "b@x"] "bob" Role.viewer
      = ([TeamMembership.mk 0 2 Role.viewer], AddMemberResult.alreadyMember) :=
  ⟨(C9_add_member_owner_only_no_duplicate (Team.mk 0 1)
      [TeamMembership.mk 0 2 Role.viewer] 3
      [UserRow.mk 2 "bob" "b@x"] "bob" Role.viewer).1 (by decide),
   ((C9_add_member_owner_only_no_duplicate (Team.mk 0 1)
      [TeamMembership.mk 0 2 Role.viewer] 1
      [UserRow.mk 2 "bob" "b@x"] "bob" Role.viewer).2
      (UserRow.mk 2 "bob" "b@x") (by decide) (by decide)).1⟩

/-- C10: the comment and like handlers evaluate no access predicate: for an
authenticated user on an existing project with `can_view` false — even when
every membership's `can_comment` capability is false — a non-empty comment is
still inserted, and the like toggle still inserts or deletes the Like row. -/
theorem C10_comment_like_ignore_access
    (p : Project) (ms : List TeamMembership) (u : UserId) (content : String)
    (comments : List Comment) (likes : List LikeRow)
    (_hview : p.can_view ms (some u) = false)
    (_hcc : ∀ m ∈ ms, m.can_comment = false)
    (hcontent : pyStrip content ≠ "") :
    project_comment p u content comments
      = Comment.mk p.id u (pyStrip content) :: comments ∧
    (countLikes likes p.id u = 0 →
      countLikes (project_like p likes u).2 p.id u = 1) ∧
    (countLikes likes p.id u ≠ 0 →
      countLikes (project_like p likes u).2 p.id u
        = countLikes likes p.id u - 1) := by
  refine ⟨?_, fun hz => ?_, fun hne => ?_⟩
  · have hb : (pyStrip content == "") = false := by
      simp [beq_eq_false_iff_ne, hcontent]
    simp [project_comment, hb]
  · have hany := (countLikes_eq_zero_iff likes p.id u).mp hz
    have hz' : (likes.filter fun l => l.project == p.id && l.user == u).length = 0 := hz
    simp [project_like, hany, countLikes, List.filter_cons, hz']
  · have hany : likes.any (fun l => l.project == p.id && l.user == u) = true := by
      by_contra hfalse
      have hf : likes.any (fun l => l.project == p.id && l.user == u) = false := by
        revert hfalse
        cases likes.any (fun l => l.project == p.id && l.user == u) <;> simp
      exact hne ((countLikes_eq_zero_iff likes p.id u).mpr hf)
    simp [project_like, hany, countLikes_eraseP]

/-- Witness for C10: user 2 cannot view the private team project 0 and the
sole membership is a `viewer` (whose `can_comment` is false), yet the comment
"hi" is inserted and the like toggle adds a row. -/
theorem C10_comment_like_witness :
    project_comment (Project.mk 0 1 (some 4) Status.draft false 0 none) 2 "hi" []
      = [Comment.mk 0 2 "hi"] ∧
    countLikes
      (project_like (Project.mk 0 1 (some 4) Status.draft false 0 none) [] 2).2
      0 2 = 1 := by
  have h := C10_comment_like_ignore_access
    (Project.mk 0 1 (some 4) Status.draft false 0 none)
    [TeamMembership.mk 4 3 Role.viewer] 2 "hi" [] []
    (by decide) (by decide) (by decide)
  exact ⟨h.1, h.2.1 (by decide)⟩

end DjangoMultimedia
